import Mathlib

/-!
Shallow embedding of `src/transceivercontroller/DefaultTransceiverController.ts`
from the amazon-chime-sdk-js repository, together with proofs about the
transceiver reconciliation algorithm (`updateVideoTransceivers` /
`updateTransceivers`), `reset`, and `setEncodingParameters`.

Modelling conventions:
* A JS object reference to an `RTCRtpTransceiver` is modelled by a numeric
  identity `tid`; the peer connection owns the list of transceiver records and
  mutation of a transceiver field is modelled by rewriting the record with that
  `tid` inside the peer's list.
* `transceiverIsVideo(t)` inspects the sender/receiver track kinds; it is
  abstracted as the boolean field `isVideo` (true for transceivers created by
  `addTransceiver('video', ...)`).
* The JS `Map` (insertion ordered, `set` overwrites in place, `delete`
  removes) is modelled by an association list with JS `Map` semantics.
* `this.peer = null` does not destroy the underlying `RTCPeerConnection`; the
  model therefore keeps the heap object `pc` in the controller state and a
  separate flag `peerAttached` standing for `this.peer !== null`.
* `DefaultVideoStreamIdSet` is not under `src/`.  Modelled from the spec:
  a `VideoStreamIdSet` is an insertion-ordered duplicate-free collection,
  `array()` returns its elements in order and `clone()` is a deep copy (the
  identity on pure values).  A desired set is therefore passed as a
  `List Nat`, with a `Nodup` hypothesis where set semantics matter.
-/

set_option autoImplicit false

namespace ChimeSdk

/-- The `RTCRtpTransceiverDirection` values used by the controller. -/
inductive Direction where
  | inactive
  | recvonly
  | sendonly
  | sendrecv
deriving DecidableEq

/-- `RTCRtpEncodingParameters`: each field is `Option` because a JS object may
or may not carry the property (`hasOwnProperty`).  `rid` and
`codecPayloadType` are the two fields `setEncodingParameters` treats as
immutable; `maxBitrate`, `scaleResolutionDownBy` and `active` stand for the
mutable payload fields (numeric fields abstracted to `Nat`).  Empty-string
rids (falsy in JS) are not modelled: a `rid` is either absent or a tag. -/
structure RTCRtpEncodingParameters where
  rid : Option String
  codecPayloadType : Option Nat
  maxBitrate : Option Nat
  scaleResolutionDownBy : Option Nat
  active : Option Bool
deriving DecidableEq

/-- One `RTCRtpTransceiver`.  `tid` is the object identity, `mid` the
negotiated media id (`null` until negotiation completes), `senderEncodings`
the `encodings` of `sender.getParameters()`. -/
structure RTCRtpTransceiver where
  tid : Nat
  mid : Option String
  direction : Direction
  isVideo : Bool
  senderEncodings : List RTCRtpEncodingParameters
deriving DecidableEq

/-- The underlying `RTCPeerConnection`: its transceiver list (in creation
order, as returned by `getTransceivers()`), a counter supplying fresh
identities for `addTransceiver`, and whether `getTransceivers` is defined. -/
structure RTCPeerConnection where
  transceivers : List RTCRtpTransceiver
  nextTid : Nat
  supportsGetTransceivers : Bool
deriving DecidableEq

/-- The `VideoStreamIndex` collaborator interface, as consumed by the
controller: tag resolution and the simulcast-group test.  The source method
is spelled `StreamIdsInSameGroup` (capitalised) and we keep that name. -/
structure VideoStreamIndex where
  streamIdForTrack : String → Option Nat
  StreamIdsInSameGroup : Nat → Nat → Bool

/-- The mutable fields of `DefaultTransceiverController` (plus the injected
`browserBehavior.requiresUnifiedPlan()` answer, which the class reads but
never changes). -/
structure DefaultTransceiverController where
  localCameraTid : Option Nat
  localAudioTid : Option Nat
  videoSubscriptions : List Nat
  hasDefaultMediaStream : Bool
  peerAttached : Bool
  pc : RTCPeerConnection
  requiresUnifiedPlan : Bool
  streamIdToTransceiver : List (Nat × Nat)
deriving DecidableEq

/-- JS `Map.prototype.set`: overwrite in place if the key exists, otherwise
append (insertion order preserved). -/
def jsMapSet (m : List (Nat × Nat)) (k v : Nat) : List (Nat × Nat) :=
  if m.any (fun e => e.1 = k) then
    m.map (fun e => if e.1 = k then (k, v) else e)
  else
    m ++ [(k, v)]

/-- JS `Map.prototype.delete`. -/
def jsMapDelete (m : List (Nat × Nat)) (k : Nat) : List (Nat × Nat) :=
  m.filter (fun e => e.1 ≠ k)

/-- The keys of a JS `Map`. -/
def jsMapKeys (m : List (Nat × Nat)) : List Nat :=
  m.map Prod.fst

/-- Deleting every entry whose value is the given transceiver: the
`for (const [streamId, previousTransceiver] of entries()) if (transceiver ===
previousTransceiver) delete(streamId)` loop of `updateTransceivers`. -/
def jsMapDeleteValue (m : List (Nat × Nat)) (tid : Nat) : List (Nat × Nat) :=
  m.filter (fun e => e.2 ≠ tid)

/-- JS string coercion used by `'v_' + transceiver.mid` when `mid` is null. -/
def midString : Option String → String
  | some m => m
  | none => "null"

/-- The correlation tag `'v_' + transceiver.mid`. -/
def trackTag (mid : Option String) : String :=
  "v_" ++ midString mid

/-- Look a transceiver up by object identity inside the peer. -/
def findTransceiver (pc : RTCPeerConnection) (tid : Nat) : Option RTCRtpTransceiver :=
  pc.transceivers.find? (fun t => t.tid == tid)

/-- `transceiver.direction` read through the live reference: the loop body
reads the current field value of the shared object, not a snapshot. -/
def currentDirection (pc : RTCPeerConnection) (t : RTCRtpTransceiver) : Direction :=
  match findTransceiver pc t.tid with
  | some u => u.direction
  | none => t.direction

/-- `transceiver.direction = d` through the live reference. -/
def setDirection (pc : RTCPeerConnection) (tid : Nat) (d : Direction) : RTCPeerConnection :=
  { pc with
    transceivers := pc.transceivers.map
      (fun t => if t.tid = tid then { t with direction := d } else t) }

/-- `peer.addTransceiver('video', { direction: 'recvonly', streams: [...] })`:
a fresh transceiver (mid is null until negotiation) appended to the peer's
list. -/
def addVideoRecvonlyTransceiver (pc : RTCPeerConnection) :
    RTCPeerConnection × RTCRtpTransceiver :=
  let t : RTCRtpTransceiver :=
    { tid := pc.nextTid, mid := none, direction := Direction.recvonly,
      isVideo := true, senderEncodings := [] }
  ({ pc with transceivers := pc.transceivers ++ [t], nextTid := pc.nextTid + 1 }, t)

/-- `useTransceivers()` (source lines 124-130). -/
def useTransceivers (c : DefaultTransceiverController) : Bool :=
  if !c.peerAttached || !c.requiresUnifiedPlan then false
  else c.pc.supportsGetTransceivers

/-- `reset()` (source lines 116-122): drops the camera/audio transceiver
references, empties the subscription array, drops the default media stream and
the peer reference.  It touches neither `streamIdToTransceiver` nor the peer's
transceivers. -/
def reset (c : DefaultTransceiverController) : DefaultTransceiverController :=
  { c with
    localCameraTid := none,
    localAudioTid := none,
    videoSubscriptions := [],
    hasDefaultMediaStream := false,
    peerAttached := false }

/-- The inner candidate scan of `updateTransceivers` (source lines 239-252):
walk `videosRemaining` in order carrying the transceiver's direction `dir` and
the subscription value `subN` at the current position; on the first same-group
candidate, set direction `recvonly`, record the candidate, splice it out of
the remaining list and break; after each failing candidate, if the position is
still 0, set the direction `inactive`.  Returns (final direction, final
subscription value, matched candidate if any, remaining list afterwards). -/
def scanRemaining (idx : VideoStreamIndex) (streamId : Nat) (dir : Direction) (subN : Nat) :
    List Nat → Direction × Nat × Option Nat × List Nat
  | [] => (dir, subN, none, [])
  | recvStreamId :: rest =>
    if idx.StreamIdsInSameGroup streamId recvStreamId then
      (Direction.recvonly, recvStreamId, some recvStreamId, rest)
    else
      let dir1 := if subN = 0 then Direction.inactive else dir
      let r := scanRemaining idx streamId dir1 subN rest
      (r.1, r.2.1, r.2.2.1, recvStreamId :: r.2.2.2)

/-- The evolving state of one reconciliation pass: the peer (transceiver
directions are mutated through it), the `streamIdToTransceiver` map, the
subscription array built so far (position `n` of the source loop is its
length) and the consumable `videosRemaining` list. -/
structure ReconcileState where
  pc : RTCPeerConnection
  streamIdToTransceiver : List (Nat × Nat)
  videoSubscriptions : List Nat
  videosRemaining : List Nat
deriving DecidableEq

/-- One iteration of the main `for (const transceiver of transceivers)` loop
of `updateTransceivers` (source lines 229-272):
`videoSubscriptions[n] = 0` then either

* direction not `inactive` (branch at line 233): resolve
  `streamIdForTrack('v_' + mid)`; if resolved run the candidate scan
  (`scanRemaining`), on a match update the map (`delete` old, `set` new) and
  the remaining list; if unresolved nothing further happens (the position
  keeps 0 and the direction is untouched);
* direction `inactive` with remaining videos (line 255): fill the slot —
  direction `recvonly`, shift the first remaining id, record and bind it;
* otherwise, i.e. direction `inactive` and nothing remaining (line 263):
  set direction `inactive` and delete every map entry bound to this
  transceiver.

Assigning `videoSubscriptions[n]` with `n` equal to the current length is an
append. -/
def processTransceiver (idx : VideoStreamIndex) (transceiver : RTCRtpTransceiver)
    (st : ReconcileState) : ReconcileState :=
  let dir := currentDirection st.pc transceiver
  if dir ≠ Direction.inactive then
    match idx.streamIdForTrack (trackTag transceiver.mid) with
    | some streamId =>
      let scan := scanRemaining idx streamId dir 0 st.videosRemaining
      { pc := setDirection st.pc transceiver.tid scan.1,
        streamIdToTransceiver :=
          match scan.2.2.1 with
          | some recvStreamId =>
            jsMapSet (jsMapDelete st.streamIdToTransceiver streamId)
              recvStreamId transceiver.tid
          | none => st.streamIdToTransceiver,
        videoSubscriptions := st.videoSubscriptions ++ [scan.2.1],
        videosRemaining := scan.2.2.2 }
    | none =>
      { st with videoSubscriptions := st.videoSubscriptions ++ [0] }
  else
    match st.videosRemaining with
    | streamId :: remainingRest =>
      { pc := setDirection st.pc transceiver.tid Direction.recvonly,
        streamIdToTransceiver := jsMapSet st.streamIdToTransceiver streamId transceiver.tid,
        videoSubscriptions := st.videoSubscriptions ++ [streamId],
        videosRemaining := remainingRest }
    | [] =>
      { pc := setDirection st.pc transceiver.tid Direction.inactive,
        streamIdToTransceiver := jsMapDeleteValue st.streamIdToTransceiver transceiver.tid,
        videoSubscriptions := st.videoSubscriptions ++ [0],
        videosRemaining := [] }

/-- The main loop of `updateTransceivers` over the filtered transceiver list:
one `processTransceiver` step per transceiver, in order. -/
def updateTransceiversLoop (idx : VideoStreamIndex) :
    List RTCRtpTransceiver → ReconcileState → ReconcileState
  | [], st => st
  | transceiver :: rest, st =>
    updateTransceiversLoop idx rest (processTransceiver idx transceiver st)

/-- The trailing `for (const index of videosRemaining)` of
`updateTransceivers` (source lines 274-286): create a fresh recvonly video
transceiver for every remaining id, bind it and push the id onto the
subscription array. -/
def createForRemaining (pc : RTCPeerConnection) (map : List (Nat × Nat))
    (subs : List Nat) : List Nat → RTCPeerConnection × List (Nat × Nat) × List Nat
  | [] => (pc, map, subs)
  | index :: rest =>
    let p := addVideoRecvonlyTransceiver pc
    createForRemaining p.1 (jsMapSet map index p.2.tid) (subs ++ [index]) rest

/-- `updateTransceivers` (source lines 214-287): filter out the local camera
transceiver and non-video transceivers, run the main loop, then create
transceivers for the remaining videos. -/
def updateTransceivers (c : DefaultTransceiverController)
    (transceivers : List RTCRtpTransceiver) (videoStreamIndex : VideoStreamIndex)
    (videosToReceive : List Nat) : DefaultTransceiverController :=
  let filtered := transceivers.filter
    (fun t => decide (some t.tid ≠ c.localCameraTid) && t.isVideo)
  let st1 := updateTransceiversLoop videoStreamIndex filtered
    { pc := c.pc,
      streamIdToTransceiver := c.streamIdToTransceiver,
      videoSubscriptions := c.videoSubscriptions,
      videosRemaining := videosToReceive }
  let r := createForRemaining st1.pc st1.streamIdToTransceiver
    st1.videoSubscriptions st1.videosRemaining
  { c with pc := r.1, streamIdToTransceiver := r.2.1, videoSubscriptions := r.2.2 }

/-- `updateVideoTransceivers` (source lines 192-212): without usable
transceivers, return the desired set's array unchanged; otherwise reset the
subscription array to `[0]` (position 0 reserved for the camera), run the
reconciliation on a clone of the desired set, and return the new subscription
array.  Returns the updated controller state together with the returned
array. -/
def updateVideoTransceivers (c : DefaultTransceiverController)
    (videoStreamIndex : VideoStreamIndex) (videosToReceive : List Nat) :
    DefaultTransceiverController × List Nat :=
  if !useTransceivers c then (c, videosToReceive)
  else
    let transceivers := c.pc.transceivers
    let c1 := { c with videoSubscriptions := [0] }
    let c2 := updateTransceivers c1 transceivers videoStreamIndex videosToReceive
    (c2, c2.videoSubscriptions)

/-- One merge step of `setEncodingParameters` (source lines 38-55): skip when
one of the rids is set and they differ; otherwise copy every property the
changed layer carries, except the immutable `rid` and `codecPayloadType`. -/
def applyEncodingChange (existing changed : RTCRtpEncodingParameters) :
    RTCRtpEncodingParameters :=
  if (existing.rid.isSome || changed.rid.isSome) && decide (existing.rid ≠ changed.rid) then
    existing
  else
    { existing with
      maxBitrate :=
        match changed.maxBitrate with
        | some v => some v
        | none => existing.maxBitrate,
      scaleResolutionDownBy :=
        match changed.scaleResolutionDownBy with
        | some v => some v
        | none => existing.scaleResolutionDownBy,
      active :=
        match changed.active with
        | some v => some v
        | none => existing.active }

/-- Write `sender.setParameters` back: replace the camera transceiver's
sender encodings through the live reference. -/
def setSenderEncodings (pc : RTCPeerConnection) (tid : Nat)
    (encodings : List RTCRtpEncodingParameters) : RTCPeerConnection :=
  { pc with
    transceivers := pc.transceivers.map
      (fun t => if t.tid = tid then { t with senderEncodings := encodings } else t) }

/-- `setEncodingParameters` (source lines 20-60).  The parameter map is a JS
`Map<string, RTCRtpEncodingParameters>`; only `size` and (insertion-ordered)
`values()` are used.  No camera transceiver, a direction other than
`sendrecv`, or an empty map: return with no state change.  When the sender
has no encodings yet they are replaced wholesale; otherwise every existing
layer is merged, in order, with every changed layer. -/
def setEncodingParameters (c : DefaultTransceiverController)
    (encodingParamMap : List (String × RTCRtpEncodingParameters)) :
    DefaultTransceiverController :=
  match c.localCameraTid with
  | none => c
  | some tid =>
    match findTransceiver c.pc tid with
    | none => c
    | some cam =>
      if cam.direction ≠ Direction.sendrecv then c
      else if encodingParamMap.length = 0 then c
      else
        let newEncodingParams := encodingParamMap.map Prod.snd
        let oldEncodings := cam.senderEncodings
        let updated :=
          if oldEncodings.length = 0 then newEncodingParams
          else oldEncodings.map
            (fun existing => newEncodingParams.foldl applyEncodingChange existing)
        { c with pc := setSenderEncodings c.pc tid updated }

/-- The merged encoding list of `setEncodingParameters` when the sender
already has encodings: every existing layer folded with every changed layer. -/
def mergeEncodings (p : List (String × RTCRtpEncodingParameters))
    (encs : List RTCRtpEncodingParameters) : List RTCRtpEncodingParameters :=
  encs.map (fun existing => (p.map Prod.snd).foldl applyEncodingChange existing)


/-! ### Concrete configurations used by witnesses and counterexamples -/

/-- A local camera transceiver (sendrecv video, identity 0). -/
def cameraT : RTCRtpTransceiver :=
  { tid := 0, mid := some "c", direction := Direction.sendrecv, isVideo := true,
    senderEncodings := [] }

/-- A non-camera video transceiver with mid `"a"`, currently `recvonly`. -/
def boundT : RTCRtpTransceiver :=
  { tid := 1, mid := some "a", direction := Direction.recvonly, isVideo := true,
    senderEncodings := [] }

/-- Stream index resolving tag `"v_a"` to StreamId 5; two ids are in the same
group iff they are equal. -/
def idxEq5 : VideoStreamIndex :=
  { streamIdForTrack := fun tag => if tag = "v_a" then some 5 else none,
    StreamIdsInSameGroup := fun a b => a == b }

/-- Stream index resolving nothing (every correlation tag is unknown). -/
def idxNone : VideoStreamIndex :=
  { streamIdForTrack := fun _ => none,
    StreamIdsInSameGroup := fun a b => a == b }

/-- Stream index resolving tag `"v_a"` to 5, with 5 and 7 in the same
simulcast group. -/
def idxGroup57 : VideoStreamIndex :=
  { streamIdForTrack := fun tag => if tag = "v_a" then some 5 else none,
    StreamIdsInSameGroup := fun a b => a == b || (a == 5 && b == 7) }

/-- Scenario-B style controller: camera at slot 0 plus one non-camera slot
bound to StreamId 5, transceivers in use. -/
def cfgB : DefaultTransceiverController :=
  { localCameraTid := some 0, localAudioTid := none, videoSubscriptions := [],
    hasDefaultMediaStream := true, peerAttached := true,
    pc := { transceivers := [cameraT, boundT], nextTid := 2,
            supportsGetTransceivers := true },
    requiresUnifiedPlan := true, streamIdToTransceiver := [(5, 1)] }

/-- The same controller without an attached peer. -/
def cfgNoPeer : DefaultTransceiverController :=
  { cfgB with peerAttached := false }

/-- A controller with a single non-camera slot bound to 5 (no camera
transceiver at all), used for the idempotence counterexample. -/
def cfg8 : DefaultTransceiverController :=
  { localCameraTid := none, localAudioTid := none, videoSubscriptions := [],
    hasDefaultMediaStream := true, peerAttached := true,
    pc := { transceivers := [{ tid := 0, mid := some "a",
                               direction := Direction.recvonly, isVideo := true,
                               senderEncodings := [] }], nextTid := 1,
            supportsGetTransceivers := true },
    requiresUnifiedPlan := true, streamIdToTransceiver := [(5, 0)] }

/-- A camera encoding layer and a patch layer with the same rid. -/
def camEnc : RTCRtpEncodingParameters :=
  { rid := some "low", codecPayloadType := some 96, maxBitrate := some 300,
    scaleResolutionDownBy := some 4, active := some true }

/-- The patch: provides only maxBitrate. -/
def patchEnc : RTCRtpEncodingParameters :=
  { rid := some "low", codecPayloadType := none, maxBitrate := some 600,
    scaleResolutionDownBy := none, active := none }

/-- A second existing encoding layer with its own rid (multi-rid simulcast). -/
def camEncHigh : RTCRtpEncodingParameters :=
  { rid := some "high", codecPayloadType := some 97, maxBitrate := some 1200,
    scaleResolutionDownBy := some 1, active := some true }

/-- The patch for the second layer: provides maxBitrate and active. -/
def patchEncHigh : RTCRtpEncodingParameters :=
  { rid := some "high", codecPayloadType := none, maxBitrate := some 2500,
    scaleResolutionDownBy := none, active := some false }

/-- The camera transceiver with two existing encoding layers. -/
def cameraWithEnc : RTCRtpTransceiver :=
  { cameraT with senderEncodings := [camEnc, camEncHigh] }

/-- Controller whose camera sender has existing encodings. -/
def cfg10 : DefaultTransceiverController :=
  { cfgB with pc := { transceivers := [cameraWithEnc, boundT], nextTid := 2,
                      supportsGetTransceivers := true } }

/-- The camera transceiver turned off. -/
def camOffT : RTCRtpTransceiver :=
  { cameraT with direction := Direction.inactive }

/-- Controller whose camera transceiver is not `sendrecv`. -/
def cfgCamOff : DefaultTransceiverController :=
  { cfgB with pc := { transceivers := [camOffT, boundT], nextTid := 2,
                      supportsGetTransceivers := true } }


/-! ### Facts about the JS `Map` model -/

theorem mem_jsMapKeys_set {m : List (Nat × Nat)} {k v a : Nat}
    (h : a ∈ jsMapKeys (jsMapSet m k v)) : a ∈ jsMapKeys m ∨ a = k := by
  simp only [jsMapKeys, jsMapSet] at h ⊢
  split at h
  · rcases List.mem_map.1 h with ⟨e, he, rfl⟩
    rcases List.mem_map.1 he with ⟨e0, he0, rfl⟩
    by_cases hk : e0.1 = k
    · right; simp [hk]
    · left; exact List.mem_map.2 ⟨e0, he0, by simp [hk]⟩
  · rcases List.mem_map.1 h with ⟨e, he, rfl⟩
    rcases List.mem_append.1 he with h1 | h1
    · exact Or.inl (List.mem_map.2 ⟨e, h1, rfl⟩)
    · right
      have : e = (k, v) := by simpa using h1
      simp [this]

theorem mem_jsMapKeys_delete {m : List (Nat × Nat)} {k a : Nat}
    (h : a ∈ jsMapKeys (jsMapDelete m k)) : a ∈ jsMapKeys m := by
  simp only [jsMapKeys, jsMapDelete] at h ⊢
  rcases List.mem_map.1 h with ⟨e, he, rfl⟩
  exact List.mem_map.2 ⟨e, (List.mem_filter.1 he).1, rfl⟩

theorem mem_jsMapKeys_deleteValue {m : List (Nat × Nat)} {tid a : Nat}
    (h : a ∈ jsMapKeys (jsMapDeleteValue m tid)) : a ∈ jsMapKeys m := by
  simp only [jsMapKeys, jsMapDeleteValue] at h ⊢
  rcases List.mem_map.1 h with ⟨e, he, rfl⟩
  exact List.mem_map.2 ⟨e, (List.mem_filter.1 he).1, rfl⟩

/-! ### Specification of the candidate scan -/

/-- Outcome of `scanRemaining`: either no candidate matched (the position
value is the one passed in, the remaining list is untouched), or some `x`
matched: `x` is the recorded value, the final direction is `recvonly`, and
exactly one occurrence of `x` was spliced out of the remaining list. -/
theorem scanRemaining_spec (idx : VideoStreamIndex) (streamId : Nat) :
    ∀ (rem : List Nat) (dir : Direction) (subN : Nat),
      ((scanRemaining idx streamId dir subN rem).2.2.1 = none ∧
        (scanRemaining idx streamId dir subN rem).2.1 = subN ∧
        (scanRemaining idx streamId dir subN rem).2.2.2 = rem) ∨
      (∃ x, (scanRemaining idx streamId dir subN rem).2.2.1 = some x ∧
        (scanRemaining idx streamId dir subN rem).2.1 = x ∧
        (scanRemaining idx streamId dir subN rem).1 = Direction.recvonly ∧
        ∀ y, rem.count y =
          ((scanRemaining idx streamId dir subN rem).2.2.2).count y +
            (if x = y then 1 else 0)) := by
  intro rem
  induction rem with
  | nil => intro dir subN; left; exact ⟨rfl, rfl, rfl⟩
  | cons recvStreamId rest ih =>
    intro dir subN
    by_cases hg : idx.StreamIdsInSameGroup streamId recvStreamId
    · right
      refine ⟨recvStreamId, ?_, ?_, ?_, ?_⟩
      · simp [scanRemaining, hg]
      · simp [scanRemaining, hg]
      · simp [scanRemaining, hg]
      · intro y
        simp only [scanRemaining, hg, if_true]
        by_cases hxy : recvStreamId = y
        · subst hxy; simp [List.count_cons]
        · simp [List.count_cons, hxy, Ne.symm hxy]
    · have hstep : scanRemaining idx streamId dir subN (recvStreamId :: rest) =
          (let dir1 := if subN = 0 then Direction.inactive else dir
           let r := scanRemaining idx streamId dir1 subN rest
           (r.1, r.2.1, r.2.2.1, recvStreamId :: r.2.2.2)) := by
        simp [scanRemaining, hg]
      rcases ih (if subN = 0 then Direction.inactive else dir) subN with
        ⟨h1, h2, h3⟩ | ⟨x, h1, h2, h3, h4⟩
      · left
        refine ⟨?_, ?_, ?_⟩ <;> simp [hstep, h1, h2, h3]
      · right
        refine ⟨x, ?_, ?_, ?_, ?_⟩
        · simp [hstep, h1]
        · simp [hstep, h2]
        · simp [hstep, h3]
        · intro y
          have := h4 y
          simp only [hstep]
          simp [List.count_cons, this]
          omega

/-! ### Peer-connection helper lemmas -/

theorem setDirection_nextTid (pc : RTCPeerConnection) (tid : Nat) (d : Direction) :
    (setDirection pc tid d).nextTid = pc.nextTid := rfl

theorem setDirection_supports (pc : RTCPeerConnection) (tid : Nat) (d : Direction) :
    (setDirection pc tid d).supportsGetTransceivers = pc.supportsGetTransceivers := rfl

theorem setDirection_length (pc : RTCPeerConnection) (tid : Nat) (d : Direction) :
    (setDirection pc tid d).transceivers.length = pc.transceivers.length := by
  simp [setDirection]

/-- `find?` by `tid` commutes with a map that does not change `tid`s. -/
theorem find?_tid_map (f : RTCRtpTransceiver → RTCRtpTransceiver)
    (hf : ∀ t, (f t).tid = t.tid) (tid : Nat) :
    ∀ l : List RTCRtpTransceiver,
      (l.map f).find? (fun t => t.tid == tid) =
        (l.find? (fun t => t.tid == tid)).map f := by
  intro l
  induction l with
  | nil => rfl
  | cons t rest ih =>
    by_cases ht : t.tid = tid
    · simp [List.find?, hf, ht]
    · simp only [List.map_cons, List.find?]
      rw [show ((f t).tid == tid) = false by simp [hf, ht],
        show (t.tid == tid) = false by simp [ht]]
      exact ih

theorem findTransceiver_setDirection (pc : RTCPeerConnection) (tid tid' : Nat) (d : Direction) :
    findTransceiver (setDirection pc tid' d) tid =
      (findTransceiver pc tid).map
        (fun u => if u.tid = tid' then { u with direction := d } else u) := by
  unfold findTransceiver setDirection
  exact find?_tid_map _ (fun t => by by_cases h : t.tid = tid' <;> simp [h]) tid _

theorem findTransceiver_setDirection_other (pc : RTCPeerConnection) {tid tid' : Nat}
    (d : Direction) (h : tid ≠ tid') :
    findTransceiver (setDirection pc tid' d) tid = findTransceiver pc tid := by
  rw [findTransceiver_setDirection]
  cases hf : findTransceiver pc tid with
  | none => rfl
  | some u =>
    have := List.find?_some hf
    have hu : u.tid = tid := by simpa using this
    simp [hu, h]

theorem findTransceiver_append (pc : RTCPeerConnection) (ts : List RTCRtpTransceiver)
    (tid : Nat) (h : (findTransceiver pc tid).isSome) :
    ({ pc with transceivers := pc.transceivers ++ ts } : RTCPeerConnection).transceivers.find?
        (fun t => t.tid == tid) = findTransceiver pc tid := by
  unfold findTransceiver at *
  rw [List.find?_append]
  cases hf : pc.transceivers.find? (fun t => t.tid == tid) with
  | none => rw [hf] at h; simp at h
  | some u => simp

/-! ### Branch characterizations of one loop iteration -/

theorem processTransceiver_eq_active_some (idx : VideoStreamIndex)
    (t : RTCRtpTransceiver) (st : ReconcileState) (streamId : Nat)
    (h1 : currentDirection st.pc t ≠ Direction.inactive)
    (h2 : idx.streamIdForTrack (trackTag t.mid) = some streamId) :
    processTransceiver idx t st =
      (let scan := scanRemaining idx streamId (currentDirection st.pc t) 0 st.videosRemaining
       { pc := setDirection st.pc t.tid scan.1,
         streamIdToTransceiver :=
           match scan.2.2.1 with
           | some recvStreamId =>
             jsMapSet (jsMapDelete st.streamIdToTransceiver streamId) recvStreamId t.tid
           | none => st.streamIdToTransceiver,
         videoSubscriptions := st.videoSubscriptions ++ [scan.2.1],
         videosRemaining := scan.2.2.2 }) := by
  simp [processTransceiver, h1, h2]

theorem processTransceiver_eq_active_none (idx : VideoStreamIndex)
    (t : RTCRtpTransceiver) (st : ReconcileState)
    (h1 : currentDirection st.pc t ≠ Direction.inactive)
    (h2 : idx.streamIdForTrack (trackTag t.mid) = none) :
    processTransceiver idx t st =
      { st with videoSubscriptions := st.videoSubscriptions ++ [0] } := by
  simp [processTransceiver, h1, h2]

theorem processTransceiver_eq_inactive_fill (idx : VideoStreamIndex)
    (t : RTCRtpTransceiver) (st : ReconcileState) (streamId : Nat) (rest : List Nat)
    (h1 : currentDirection st.pc t = Direction.inactive)
    (h2 : st.videosRemaining = streamId :: rest) :
    processTransceiver idx t st =
      { pc := setDirection st.pc t.tid Direction.recvonly,
        streamIdToTransceiver := jsMapSet st.streamIdToTransceiver streamId t.tid,
        videoSubscriptions := st.videoSubscriptions ++ [streamId],
        videosRemaining := rest } := by
  simp [processTransceiver, h1, h2]

theorem processTransceiver_eq_inactive_off (idx : VideoStreamIndex)
    (t : RTCRtpTransceiver) (st : ReconcileState)
    (h1 : currentDirection st.pc t = Direction.inactive)
    (h2 : st.videosRemaining = []) :
    processTransceiver idx t st =
      { pc := setDirection st.pc t.tid Direction.inactive,
        streamIdToTransceiver := jsMapDeleteValue st.streamIdToTransceiver t.tid,
        videoSubscriptions := st.videoSubscriptions ++ [0],
        videosRemaining := [] } := by
  simp [processTransceiver, h1, h2]

/-- Bookkeeping facts about one loop iteration: exactly one subscription
entry is appended and it is 0 or drawn from the remaining list; for nonzero
ids the combined count over (subscriptions, remaining) is preserved; the
remaining list only shrinks; map keys are only added from the remaining list;
and the iteration neither creates nor removes transceivers. -/
theorem processTransceiver_spec (idx : VideoStreamIndex) (t : RTCRtpTransceiver)
    (st : ReconcileState) :
    (∃ x, (processTransceiver idx t st).videoSubscriptions = st.videoSubscriptions ++ [x] ∧
       (x = 0 ∨ x ∈ st.videosRemaining)) ∧
    (∀ d, d ≠ 0 →
       ((processTransceiver idx t st).videoSubscriptions).count d +
         ((processTransceiver idx t st).videosRemaining).count d =
       (st.videoSubscriptions).count d + (st.videosRemaining).count d) ∧
    (∀ d, ((processTransceiver idx t st).videosRemaining).count d ≤
       (st.videosRemaining).count d) ∧
    (∀ k, k ∈ jsMapKeys (processTransceiver idx t st).streamIdToTransceiver →
       k ∈ jsMapKeys st.streamIdToTransceiver ∨ k ∈ st.videosRemaining) ∧
    (processTransceiver idx t st).pc.nextTid = st.pc.nextTid ∧
    (processTransceiver idx t st).pc.transceivers.length = st.pc.transceivers.length ∧
    (processTransceiver idx t st).pc.supportsGetTransceivers = st.pc.supportsGetTransceivers := by
  by_cases hdir : currentDirection st.pc t = Direction.inactive
  · cases hrem : st.videosRemaining with
    | nil =>
      rw [processTransceiver_eq_inactive_off idx t st hdir hrem]
      refine ⟨⟨0, rfl, Or.inl rfl⟩, ?_, ?_, ?_, rfl, setDirection_length _ _ _, rfl⟩
      · intro d hd
        simp [hrem, List.count_singleton, Ne.symm hd]
      · intro d; simp [hrem]
      · intro k hk
        exact Or.inl (mem_jsMapKeys_deleteValue hk)
    | cons s rest =>
      rw [processTransceiver_eq_inactive_fill idx t st s rest hdir hrem]
      refine ⟨⟨s, rfl, Or.inr (by simp [hrem])⟩, ?_, ?_, ?_, rfl, setDirection_length _ _ _, rfl⟩
      · intro d hd
        dsimp only
        rw [List.count_append, List.count_singleton, List.count_cons]
        by_cases hsd : s = d
        · simp [hsd]
          omega
        · simp [hsd]
      · intro d
        dsimp only
        rw [List.count_cons]
        omega
      · intro k hk
        rcases mem_jsMapKeys_set hk with h | h
        · exact Or.inl h
        · exact Or.inr (by simp [hrem, h])
  · cases hres : idx.streamIdForTrack (trackTag t.mid) with
    | none =>
      rw [processTransceiver_eq_active_none idx t st hdir hres]
      refine ⟨⟨0, rfl, Or.inl rfl⟩, ?_, ?_, fun k hk => Or.inl hk, rfl, rfl, rfl⟩
      · intro d hd
        simp [List.count_singleton, Ne.symm hd]
      · intro d; exact Nat.le_refl _
    | some streamId =>
      rw [processTransceiver_eq_active_some idx t st streamId hdir hres]
      simp only []
      rcases scanRemaining_spec idx streamId st.videosRemaining
          (currentDirection st.pc t) 0 with ⟨hm, hs, hr⟩ | ⟨x, hm, hs, _, hc⟩
      · simp only [hm, hs, hr]
        refine ⟨⟨0, rfl, Or.inl rfl⟩, ?_, ?_, fun k hk => Or.inl hk, rfl,
          setDirection_length _ _ _, rfl⟩
        · intro d hd
          simp [List.count_singleton, Ne.symm hd]
        · intro d; exact Nat.le_refl _
      · have hxmem : x ∈ st.videosRemaining := by
          have h1 := hc x
          rw [if_pos rfl] at h1
          exact List.count_pos_iff.1 (by omega)
        simp only [hm, hs]
        refine ⟨⟨x, rfl, Or.inr hxmem⟩, ?_, ?_, ?_, rfl, setDirection_length _ _ _, rfl⟩
        · intro d hd
          have hcd := hc d
          rw [List.count_append, List.count_singleton, hcd]
          by_cases hxd : x = d
          · simp [hxd]
            omega
          · simp [hxd]
        · intro d
          have hcd := hc d
          by_cases hxd : x = d
          · rw [if_pos hxd] at hcd; omega
          · rw [if_neg hxd] at hcd; omega
        · intro k hk
          rcases mem_jsMapKeys_set hk with h | h
          · exact Or.inl (mem_jsMapKeys_delete h)
          · subst h; exact Or.inr hxmem

/-- Loop-level accumulation of `processTransceiver_spec`: the loop appends
exactly one subscription entry per processed transceiver, each entry 0 or
drawn from the initial remaining list; nonzero counts move only between the
subscription array and the remaining list; map keys are only added from the
remaining list; no transceiver is created or removed. -/
theorem updateTransceiversLoop_spec (idx : VideoStreamIndex) :
    ∀ (ts : List RTCRtpTransceiver) (st : ReconcileState),
      (∃ tail, (updateTransceiversLoop idx ts st).videoSubscriptions =
           st.videoSubscriptions ++ tail ∧ tail.length = ts.length ∧
           ∀ v ∈ tail, v = 0 ∨ v ∈ st.videosRemaining) ∧
      (∀ d, d ≠ 0 →
         ((updateTransceiversLoop idx ts st).videoSubscriptions).count d +
           ((updateTransceiversLoop idx ts st).videosRemaining).count d =
         (st.videoSubscriptions).count d + (st.videosRemaining).count d) ∧
      (∀ d, ((updateTransceiversLoop idx ts st).videosRemaining).count d ≤
         (st.videosRemaining).count d) ∧
      (∀ k, k ∈ jsMapKeys (updateTransceiversLoop idx ts st).streamIdToTransceiver →
         k ∈ jsMapKeys st.streamIdToTransceiver ∨ k ∈ st.videosRemaining) ∧
      (updateTransceiversLoop idx ts st).pc.nextTid = st.pc.nextTid ∧
      (updateTransceiversLoop idx ts st).pc.transceivers.length = st.pc.transceivers.length ∧
      (updateTransceiversLoop idx ts st).pc.supportsGetTransceivers =
        st.pc.supportsGetTransceivers := by
  intro ts
  induction ts with
  | nil =>
    intro st
    exact ⟨⟨[], by simp [updateTransceiversLoop], rfl, by simp⟩, fun d _ => rfl,
      fun d => Nat.le_refl _, fun k hk => Or.inl hk, rfl, rfl, rfl⟩
  | cons t rest ih =>
    intro st
    obtain ⟨⟨x, hx, hxmem⟩, hcount1, hle1, hmap1, hnt1, hlen1, hsup1⟩ :=
      processTransceiver_spec idx t st
    obtain ⟨⟨tail, htail, hlen, htmem⟩, hcount2, hle2, hmap2, hnt2, hlen2, hsup2⟩ :=
      ih (processTransceiver idx t st)
    have hmem1 : ∀ v, v ∈ (processTransceiver idx t st).videosRemaining →
        v ∈ st.videosRemaining := fun v hv =>
      List.count_pos_iff.1 (Nat.lt_of_lt_of_le (List.count_pos_iff.2 hv) (hle1 v))
    have hloop : updateTransceiversLoop idx (t :: rest) st =
        updateTransceiversLoop idx rest (processTransceiver idx t st) := rfl
    rw [hloop]
    refine ⟨⟨x :: tail, ?_, ?_, ?_⟩, ?_, ?_, ?_, ?_, ?_, ?_⟩
    · rw [htail, hx, List.append_assoc, List.singleton_append]
    · simp [hlen]
    · intro v hv
      rcases List.mem_cons.1 hv with rfl | hv
      · exact hxmem
      · rcases htmem v hv with h | h
        · exact Or.inl h
        · exact Or.inr (hmem1 v h)
    · intro d hd
      have h1 := hcount1 d hd
      have h2 := hcount2 d hd
      rw [hx, List.count_append] at h1 h2
      omega
    · intro d
      exact Nat.le_trans (hle2 d) (hle1 d)
    · intro k hk
      rcases hmap2 k hk with h | h
      · rcases hmap1 k h with h' | h'
        · exact Or.inl h'
        · exact Or.inr h'
      · exact Or.inr (hmem1 k h)
    · rw [hnt2, hnt1]
    · rw [hlen2, hlen1]
    · rw [hsup2, hsup1]

/-- `createForRemaining` appends exactly the remaining ids to the
subscription array. -/
theorem createForRemaining_subs :
    ∀ (rem : List Nat) (pc : RTCPeerConnection) (map : List (Nat × Nat)) (subs : List Nat),
      (createForRemaining pc map subs rem).2.2 = subs ++ rem := by
  intro rem
  induction rem with
  | nil => intro pc map subs; simp [createForRemaining]
  | cons i rest ih =>
    intro pc map subs
    rw [createForRemaining, ih, List.append_assoc, List.singleton_append]

/-- `createForRemaining` only adds map keys drawn from the remaining ids. -/
theorem createForRemaining_map :
    ∀ (rem : List Nat) (pc : RTCPeerConnection) (map : List (Nat × Nat)) (subs : List Nat)
      (k : Nat), k ∈ jsMapKeys (createForRemaining pc map subs rem).2.1 →
      k ∈ jsMapKeys map ∨ k ∈ rem := by
  intro rem
  induction rem with
  | nil => intro pc map subs k hk; exact Or.inl hk
  | cons i rest ih =>
    intro pc map subs k hk
    rw [createForRemaining] at hk
    rcases ih _ _ _ k hk with h | h
    · rcases mem_jsMapKeys_set h with h' | h'
      · exact Or.inl h'
      · exact Or.inr (by simp [h'])
    · exact Or.inr (List.mem_cons_of_mem _ h)

/-- `createForRemaining` creates one transceiver per remaining id and keeps
the `getTransceivers` capability flag. -/
theorem createForRemaining_pc :
    ∀ (rem : List Nat) (pc : RTCPeerConnection) (map : List (Nat × Nat)) (subs : List Nat),
      (createForRemaining pc map subs rem).1.transceivers.length =
          pc.transceivers.length + rem.length ∧
        (createForRemaining pc map subs rem).1.supportsGetTransceivers =
          pc.supportsGetTransceivers := by
  intro rem
  induction rem with
  | nil => intro pc map subs; exact ⟨rfl, rfl⟩
  | cons i rest ih =>
    intro pc map subs
    rw [createForRemaining]
    obtain ⟨h1, h2⟩ := ih (addVideoRecvonlyTransceiver pc).1
      (jsMapSet map i (addVideoRecvonlyTransceiver pc).2.tid) (subs ++ [i])
    constructor
    · rw [h1]
      simp [addVideoRecvonlyTransceiver]
      omega
    · rw [h2]
      simp [addVideoRecvonlyTransceiver]

/-- A transceiver already present in the peer is found unchanged after
appending a fresh one. -/
theorem findTransceiver_addVideo (pc : RTCPeerConnection) (tid : Nat)
    (h : (findTransceiver pc tid).isSome) :
    findTransceiver (addVideoRecvonlyTransceiver pc).1 tid = findTransceiver pc tid := by
  unfold findTransceiver addVideoRecvonlyTransceiver at *
  rw [List.find?_append]
  cases hf : pc.transceivers.find? (fun t => t.tid == tid) with
  | none => rw [hf] at h; simp at h
  | some u => simp

/-- A transceiver already present in the peer is found unchanged after the
whole creation pass. -/
theorem createForRemaining_find (tid : Nat) :
    ∀ (rem : List Nat) (pc : RTCPeerConnection) (map : List (Nat × Nat)) (subs : List Nat),
      (findTransceiver pc tid).isSome →
      findTransceiver (createForRemaining pc map subs rem).1 tid = findTransceiver pc tid := by
  intro rem
  induction rem with
  | nil => intro pc map subs _; rfl
  | cons i rest ih =>
    intro pc map subs h
    rw [createForRemaining]
    have hstep := findTransceiver_addVideo pc tid h
    rw [ih _ _ _ (by rw [hstep]; exact h), hstep]

/-- One loop iteration leaves every other transceiver untouched. -/
theorem processTransceiver_find_other (idx : VideoStreamIndex) (t : RTCRtpTransceiver)
    (st : ReconcileState) {tid : Nat} (h : tid ≠ t.tid) :
    findTransceiver (processTransceiver idx t st).pc tid = findTransceiver st.pc tid := by
  by_cases hdir : currentDirection st.pc t = Direction.inactive
  · cases hrem : st.videosRemaining with
    | nil =>
      rw [processTransceiver_eq_inactive_off idx t st hdir hrem]
      exact findTransceiver_setDirection_other _ _ h
    | cons s rest =>
      rw [processTransceiver_eq_inactive_fill idx t st s rest hdir hrem]
      exact findTransceiver_setDirection_other _ _ h
  · cases hres : idx.streamIdForTrack (trackTag t.mid) with
    | none =>
      rw [processTransceiver_eq_active_none idx t st hdir hres]
    | some streamId =>
      rw [processTransceiver_eq_active_some idx t st streamId hdir hres]
      exact findTransceiver_setDirection_other _ _ h

/-- The loop leaves every transceiver not in the processed list untouched. -/
theorem updateTransceiversLoop_find_other (idx : VideoStreamIndex) :
    ∀ (ts : List RTCRtpTransceiver) (st : ReconcileState) (tid : Nat),
      (∀ u ∈ ts, tid ≠ u.tid) →
      findTransceiver (updateTransceiversLoop idx ts st).pc tid =
        findTransceiver st.pc tid := by
  intro ts
  induction ts with
  | nil => intro st tid _; rfl
  | cons t rest ih =>
    intro st tid h
    have hloop : updateTransceiversLoop idx (t :: rest) st =
        updateTransceiversLoop idx rest (processTransceiver idx t st) := rfl
    rw [hloop, ih _ tid (fun u hu => h u (List.mem_cons_of_mem _ hu)),
      processTransceiver_find_other idx t st (h t (List.mem_cons_self t rest))]

/-! ### Unfolding and bookkeeping for `updateVideoTransceivers` -/

/-- Unfolding of `updateVideoTransceivers` when transceivers are in use. -/
theorem updateVideoTransceivers_eq (c : DefaultTransceiverController)
    (idx : VideoStreamIndex) (videosToReceive : List Nat)
    (h : useTransceivers c = true) :
    updateVideoTransceivers c idx videosToReceive =
      (let filtered := c.pc.transceivers.filter
         (fun t => decide (some t.tid ≠ c.localCameraTid) && t.isVideo)
       let st1 := updateTransceiversLoop idx filtered
         { pc := c.pc, streamIdToTransceiver := c.streamIdToTransceiver,
           videoSubscriptions := [0], videosRemaining := videosToReceive }
       let r := createForRemaining st1.pc st1.streamIdToTransceiver
         st1.videoSubscriptions st1.videosRemaining
       ({ c with pc := r.1, streamIdToTransceiver := r.2.1, videoSubscriptions := r.2.2 },
        r.2.2)) := by
  simp [updateVideoTransceivers, updateTransceivers, h]

theorem updateVideoTransceivers_count (c : DefaultTransceiverController)
    (idx : VideoStreamIndex) (D : List Nat) (h : useTransceivers c = true)
    (hnd : D.Nodup) (h0 : 0 ∉ D) :
    ∀ d ∈ D, ((updateVideoTransceivers c idx D).2).count d = 1 := by
  intro d hd
  have hdne : d ≠ 0 := fun hh => h0 (hh ▸ hd)
  rw [updateVideoTransceivers_eq c idx D h]
  dsimp only
  rw [createForRemaining_subs, List.count_append]
  obtain ⟨_, hcount, _, _, _, _, _⟩ := updateTransceiversLoop_spec idx
    (c.pc.transceivers.filter (fun t => decide (some t.tid ≠ c.localCameraTid) && t.isVideo))
    { pc := c.pc, streamIdToTransceiver := c.streamIdToTransceiver,
      videoSubscriptions := [0], videosRemaining := D }
  have hc := hcount d hdne
  have hzero : List.count d [0] = 0 := by
    simp [List.count_singleton, Ne.symm hdne]
  have hone : List.count d D = 1 := List.count_eq_one_of_mem hnd hd
  dsimp only at hc
  omega

theorem updateVideoTransceivers_values (c : DefaultTransceiverController)
    (idx : VideoStreamIndex) (D : List Nat) (h : useTransceivers c = true) :
    ∀ v ∈ (updateVideoTransceivers c idx D).2, v = 0 ∨ v ∈ D := by
  intro v hv
  rw [updateVideoTransceivers_eq c idx D h] at hv
  dsimp only at hv
  rw [createForRemaining_subs] at hv
  obtain ⟨⟨tail, hsubs, _, htmem⟩, _, hle, _, _, _, _⟩ := updateTransceiversLoop_spec idx
    (c.pc.transceivers.filter (fun t => decide (some t.tid ≠ c.localCameraTid) && t.isVideo))
    { pc := c.pc, streamIdToTransceiver := c.streamIdToTransceiver,
      videoSubscriptions := [0], videosRemaining := D }
  dsimp only at hsubs htmem hle
  rcases List.mem_append.1 hv with hv1 | hv1
  · rw [hsubs] at hv1
    rcases List.mem_append.1 hv1 with hv2 | hv2
    · exact Or.inl (by simpa using hv2)
    · exact htmem v hv2
  · exact Or.inr (List.count_pos_iff.1
      (Nat.lt_of_lt_of_le (List.count_pos_iff.2 hv1) (hle v)))

theorem updateVideoTransceivers_head (c : DefaultTransceiverController)
    (idx : VideoStreamIndex) (D : List Nat) (h : useTransceivers c = true) :
    ((updateVideoTransceivers c idx D).2).head? = some 0 := by
  rw [updateVideoTransceivers_eq c idx D h]
  dsimp only
  rw [createForRemaining_subs]
  obtain ⟨⟨tail, hsubs, _, _⟩, _, _, _, _, _, _⟩ := updateTransceiversLoop_spec idx
    (c.pc.transceivers.filter (fun t => decide (some t.tid ≠ c.localCameraTid) && t.isVideo))
    { pc := c.pc, streamIdToTransceiver := c.streamIdToTransceiver,
      videoSubscriptions := [0], videosRemaining := D }
  dsimp only at hsubs
  rw [hsubs]
  rfl

theorem updateVideoTransceivers_map_keys (c : DefaultTransceiverController)
    (idx : VideoStreamIndex) (D : List Nat) (h : useTransceivers c = true) :
    ∀ k ∈ jsMapKeys ((updateVideoTransceivers c idx D).1.streamIdToTransceiver),
      k ∈ jsMapKeys c.streamIdToTransceiver ∨ k ∈ D := by
  intro k hk
  rw [updateVideoTransceivers_eq c idx D h] at hk
  dsimp only at hk
  obtain ⟨_, _, hle, hmap, _, _, _⟩ := updateTransceiversLoop_spec idx
    (c.pc.transceivers.filter (fun t => decide (some t.tid ≠ c.localCameraTid) && t.isVideo))
    { pc := c.pc, streamIdToTransceiver := c.streamIdToTransceiver,
      videoSubscriptions := [0], videosRemaining := D }
  dsimp only at hle hmap
  rcases createForRemaining_map _ _ _ _ k hk with h1 | h1
  · exact hmap k h1
  · exact Or.inr (List.count_pos_iff.1
      (Nat.lt_of_lt_of_le (List.count_pos_iff.2 h1) (hle k)))

theorem updateVideoTransceivers_keeps_use (c : DefaultTransceiverController)
    (idx : VideoStreamIndex) (D : List Nat) :
    useTransceivers (updateVideoTransceivers c idx D).1 = useTransceivers c := by
  by_cases h : useTransceivers c = true
  · rw [updateVideoTransceivers_eq c idx D h]
    dsimp only
    obtain ⟨_, _, _, _, _, _, hsup⟩ := updateTransceiversLoop_spec idx
      (c.pc.transceivers.filter (fun t => decide (some t.tid ≠ c.localCameraTid) && t.isVideo))
      { pc := c.pc, streamIdToTransceiver := c.streamIdToTransceiver,
        videoSubscriptions := [0], videosRemaining := D }
    dsimp only at hsup
    obtain ⟨_, hsup2⟩ := createForRemaining_pc _ _ _ _
    unfold useTransceivers
    dsimp only
    rw [hsup2, hsup]
  · have hb : useTransceivers c = false := Bool.eq_false_iff.2 h
    simp [updateVideoTransceivers, hb]

/-- The loop splits along list concatenation. -/
theorem updateTransceiversLoop_append (idx : VideoStreamIndex) :
    ∀ (a b : List RTCRtpTransceiver) (st : ReconcileState),
      updateTransceiversLoop idx (a ++ b) st =
        updateTransceiversLoop idx b (updateTransceiversLoop idx a st) := by
  intro a
  induction a with
  | nil => intro b st; rfl
  | cons t rest ih =>
    intro b st
    exact ih b (processTransceiver idx t st)

/-- Reading the direction through the live reference when the lookup
succeeds. -/
theorem currentDirection_eq_of_find {pc : RTCPeerConnection} {t u : RTCRtpTransceiver}
    (h : findTransceiver pc t.tid = some u) : currentDirection pc t = u.direction := by
  unfold currentDirection
  rw [h]

/-- The element right after a prefix of known length. -/
theorem getElem?_append_cons :
    ∀ (l : List Nat) (x : Nat) (r : List Nat), (l ++ x :: r)[l.length]? = some x := by
  intro l
  induction l with
  | nil => intro x r; simp
  | cons y l ih =>
    intro x r
    simpa using ih x r

theorem updateTransceiversLoop_cons (idx : VideoStreamIndex) (t : RTCRtpTransceiver)
    (ts : List RTCRtpTransceiver) (st : ReconcileState) :
    updateTransceiversLoop idx (t :: ts) st =
      updateTransceiversLoop idx ts (processTransceiver idx t st) := rfl

/-! ### Claim C1 -/

/-- C1: in every reconciliation call (transceivers in use) with a desired set
of distinct nonzero StreamIds, each desired StreamId appears exactly once in
the returned SubscriptionArray — recorded at a reused slot's position or
appended via a newly created recvonly transceiver; none is dropped. -/
theorem claim1_completeness (c : DefaultTransceiverController)
    (idx : VideoStreamIndex) (D : List Nat) (h : useTransceivers c = true)
    (hnd : D.Nodup) (h0 : 0 ∉ D) :
    ∀ d ∈ D, ((updateVideoTransceivers c idx D).2).count d = 1 :=
  updateVideoTransceivers_count c idx D h hnd h0

/-- Witness for C1: the Scenario-B controller asked for {7, 9}. -/
theorem claim1_completeness_witness :
    useTransceivers cfgB = true ∧
    ((updateVideoTransceivers cfgB idxEq5 [7, 9]).2).count 7 = 1 ∧
    ((updateVideoTransceivers cfgB idxEq5 [7, 9]).2).count 9 = 1 :=
  ⟨by decide,
    claim1_completeness cfgB idxEq5 [7, 9] (by decide) (by decide) (by decide)
      7 (by decide),
    claim1_completeness cfgB idxEq5 [7, 9] (by decide) (by decide) (by decide)
      9 (by decide)⟩

/-! ### Claim C2 -/

/-- C2 is false on the code: with the map binding 5 to an active slot whose
tag resolves to 5, and desired set {9} in a different group, the key 5
survives reconciliation (the no-match deactivation path never deletes the old
binding), so not every key is in the desired set. -/
theorem claim2_counterexample :
    ¬ (∀ k ∈ jsMapKeys ((updateVideoTransceivers cfgB idxEq5 [9]).1.streamIdToTransceiver),
        k ∈ ([9] : List Nat)) := by
  decide

/-- C2 (amended): after reconciliation, every key of the streamIdToTransceiver
map is a member of the desired set or was already a key before the call —
reconciliation adds only desired bindings, but stale bindings of slots
deactivated through the no-match path survive. -/
theorem claim2_amended_no_new_orphans (c : DefaultTransceiverController)
    (idx : VideoStreamIndex) (D : List Nat) (h : useTransceivers c = true) :
    ∀ k ∈ jsMapKeys ((updateVideoTransceivers c idx D).1.streamIdToTransceiver),
      k ∈ jsMapKeys c.streamIdToTransceiver ∨ k ∈ D :=
  updateVideoTransceivers_map_keys c idx D h

/-- Witness for the amended C2. -/
theorem claim2_amended_witness :
    useTransceivers cfgB = true ∧
    (5 ∈ jsMapKeys cfgB.streamIdToTransceiver ∨ 5 ∈ ([9] : List Nat)) :=
  ⟨by decide,
    claim2_amended_no_new_orphans cfgB idxEq5 [9] (by decide) 5 (by decide)⟩

/-! ### Claim C3 -/

/-- C3 (code behavior at the spec's Scenario B): one non-camera `recvonly`
transceiver whose tag resolves to 5, bound to 5, desired set empty.  The call
returns [0, 0] as the claim states, but the transceiver record is unchanged —
its direction is still `recvonly`, not `inactive` — and 5 is still a key of
the map.  The inner `else if` chain (source lines 255-270) makes the
"toggle off all remaining transceivers" branch unreachable for active
transceivers, contradicting the comment at source line 262. -/
theorem claim3_scenarioB_behavior :
    (updateVideoTransceivers cfgB idxEq5 []).2 = [0, 0] ∧
    findTransceiver ((updateVideoTransceivers cfgB idxEq5 []).1.pc) 1 = some boundT ∧
    boundT.direction = Direction.recvonly ∧
    (updateVideoTransceivers cfgB idxEq5 []).1.streamIdToTransceiver = [(5, 1)] := by
  decide

/-! ### Claim C4 -/

/-- C4: whenever transceivers are in use, the returned SubscriptionArray is
non-empty and its element at index 0 is the camera sentinel 0 — a receive
StreamId is never written at index 0. -/
theorem claim4_camera_sentinel (c : DefaultTransceiverController)
    (idx : VideoStreamIndex) (D : List Nat) (h : useTransceivers c = true) :
    ((updateVideoTransceivers c idx D).2).head? = some 0 :=
  updateVideoTransceivers_head c idx D h

/-- Witness for C4. -/
theorem claim4_camera_sentinel_witness :
    useTransceivers cfgB = true ∧
    ((updateVideoTransceivers cfgB idxEq5 [7, 9]).2).head? = some 0 :=
  ⟨by decide, claim4_camera_sentinel cfgB idxEq5 [7, 9] (by decide)⟩

/-! ### Claim C5 -/

/-- C5 is false on the code: with the Scenario-B controller but an index that
resolves no tag, the active slot's transceiver record is unchanged after the
call — its direction is still `recvonly`, not `inactive` as the claim
requires (0 is recorded and no error is raised, though). -/
theorem claim5_counterexample :
    findTransceiver ((updateVideoTransceivers cfgB idxNone []).1.pc) 1 = some boundT ∧
    boundT.direction = Direction.recvonly ∧
    (updateVideoTransceivers cfgB idxNone []).2 = [0, 0] := by
  decide

/-- C5 (amended): during reconciliation, an existing non-inactive video slot
whose correlation tag cannot be resolved is left completely untouched — its
direction is NOT set to `inactive` — while 0 is recorded at its subscription
position; no error is raised (the function is total).  `a`/`b` are the
filtered slots before/after the unresolved one. -/
theorem claim5_amended_unresolved_slot (c : DefaultTransceiverController)
    (idx : VideoStreamIndex) (D : List Nat) (t : RTCRtpTransceiver)
    (a b : List RTCRtpTransceiver)
    (h : useTransceivers c = true)
    (hsplit : c.pc.transceivers.filter
        (fun u => decide (some u.tid ≠ c.localCameraTid) && u.isVideo) = a ++ t :: b)
    (ha : ∀ u ∈ a, t.tid ≠ u.tid)
    (hb : ∀ u ∈ b, t.tid ≠ u.tid)
    (hfind : findTransceiver c.pc t.tid = some t)
    (hdir : t.direction ≠ Direction.inactive)
    (hres : idx.streamIdForTrack (trackTag t.mid) = none) :
    findTransceiver ((updateVideoTransceivers c idx D).1.pc) t.tid = some t ∧
    ((updateVideoTransceivers c idx D).2)[1 + a.length]? = some 0 := by
  rw [updateVideoTransceivers_eq c idx D h]
  dsimp only
  rw [hsplit, updateTransceiversLoop_append, updateTransceiversLoop_cons]
  have hfind1 : findTransceiver (updateTransceiversLoop idx a
      { pc := c.pc, streamIdToTransceiver := c.streamIdToTransceiver,
        videoSubscriptions := [0], videosRemaining := D }).pc t.tid = some t := by
    rw [updateTransceiversLoop_find_other idx a _ t.tid ha]
    exact hfind
  have hdir1 : currentDirection (updateTransceiversLoop idx a
      { pc := c.pc, streamIdToTransceiver := c.streamIdToTransceiver,
        videoSubscriptions := [0], videosRemaining := D }).pc t ≠ Direction.inactive := by
    rw [currentDirection_eq_of_find hfind1]
    exact hdir
  have hfind3 : findTransceiver (updateTransceiversLoop idx b
      (processTransceiver idx t (updateTransceiversLoop idx a
        { pc := c.pc, streamIdToTransceiver := c.streamIdToTransceiver,
          videoSubscriptions := [0], videosRemaining := D }))).pc t.tid = some t := by
    rw [updateTransceiversLoop_find_other idx b _ t.tid hb,
      processTransceiver_eq_active_none idx t _ hdir1 hres]
    exact hfind1
  refine ⟨?_, ?_⟩
  · rw [createForRemaining_find t.tid _ _ _ _ (by rw [hfind3]; rfl)]
    exact hfind3
  · rw [createForRemaining_subs]
    obtain ⟨⟨tail2, hs2, _, _⟩, _⟩ := updateTransceiversLoop_spec idx b
      (processTransceiver idx t (updateTransceiversLoop idx a
        { pc := c.pc, streamIdToTransceiver := c.streamIdToTransceiver,
          videoSubscriptions := [0], videosRemaining := D }))
    rw [hs2, processTransceiver_eq_active_none idx t _ hdir1 hres]
    dsimp only
    obtain ⟨⟨tail1, hs1, hl1, _⟩, _⟩ := updateTransceiversLoop_spec idx a
      { pc := c.pc, streamIdToTransceiver := c.streamIdToTransceiver,
        videoSubscriptions := [0], videosRemaining := D }
    dsimp only at hs1
    rw [hs1]
    have hassoc : ∀ (s1 t2 r : List Nat),
        ((((([0] : List Nat) ++ s1) ++ [0]) ++ t2) ++ r) =
          ([0] ++ s1) ++ (0 :: (t2 ++ r)) := by
      intro s1 t2 r
      simp
    rw [hassoc]
    have hlen : (([0] : List Nat) ++ tail1).length = 1 + a.length := by
      simp [hl1]
      omega
    rw [← hlen]
    exact getElem?_append_cons _ 0 _

/-- Witness for the amended C5: the Scenario-B controller with an index that
resolves nothing. -/
theorem claim5_amended_witness :
    findTransceiver ((updateVideoTransceivers cfgB idxNone []).1.pc) boundT.tid =
        some boundT ∧
    ((updateVideoTransceivers cfgB idxNone []).2)[1]? = some 0 :=
  claim5_amended_unresolved_slot cfgB idxNone [] boundT [] []
    (by decide) (by decide) (by intro u hu; cases hu) (by intro u hu; cases hu)
    (by decide) (by decide) (by decide)

/-! ### Claim C6 -/

/-- C6 is false on the code: `reset()` does not clear the
streamIdToTransceiver map (source lines 116-122 never touch it). -/
theorem claim6_counterexample :
    (reset cfgB).streamIdToTransceiver ≠ [] := by
  decide

/-- C6 (amended): `reset` empties the subscription array and clears the
camera/audio transceiver references, the default media stream and the peer
reference; it destroys no underlying channel (the peer object and all its
transceivers are untouched).  It does NOT clear the streamIdToTransceiver
map. -/
theorem claim6_amended_reset (c : DefaultTransceiverController) :
    (reset c).videoSubscriptions = [] ∧
    (reset c).localCameraTid = none ∧
    (reset c).localAudioTid = none ∧
    (reset c).hasDefaultMediaStream = false ∧
    (reset c).peerAttached = false ∧
    (reset c).pc = c.pc ∧
    (reset c).streamIdToTransceiver = c.streamIdToTransceiver :=
  ⟨rfl, rfl, rfl, rfl, rfl, rfl, rfl⟩

/-! ### Claim C7 -/

/-- C7: a slot bound to `x` (tag resolves to `x`, direction `recvonly`) with
desired set `{y}` in the same group as `x` is rebound in place: the result is
`[0, y]`, the slot keeps direction `recvonly` (record unchanged), the map
drops `x` and binds `y` to the same slot, and no transceiver is created. -/
theorem claim7_same_group_rebind (c : DefaultTransceiverController)
    (idx : VideoStreamIndex) (x y : Nat) (t : RTCRtpTransceiver)
    (h : useTransceivers c = true)
    (hfil : c.pc.transceivers.filter
        (fun u => decide (some u.tid ≠ c.localCameraTid) && u.isVideo) = [t])
    (hfind : findTransceiver c.pc t.tid = some t)
    (hdir : t.direction = Direction.recvonly)
    (hres : idx.streamIdForTrack (trackTag t.mid) = some x)
    (hgroup : idx.StreamIdsInSameGroup x y = true)
    (hmap : c.streamIdToTransceiver = [(x, t.tid)]) :
    (updateVideoTransceivers c idx [y]).2 = [0, y] ∧
    (updateVideoTransceivers c idx [y]).1.streamIdToTransceiver = [(y, t.tid)] ∧
    findTransceiver ((updateVideoTransceivers c idx [y]).1.pc) t.tid = some t ∧
    (updateVideoTransceivers c idx [y]).1.pc.transceivers.length =
      c.pc.transceivers.length := by
  rw [updateVideoTransceivers_eq c idx [y] h]
  dsimp only
  rw [hfil, updateTransceiversLoop_cons]
  have hdir0 : currentDirection
      (ReconcileState.mk c.pc c.streamIdToTransceiver [0] [y]).pc t ≠
      Direction.inactive := by
    rw [currentDirection_eq_of_find hfind, hdir]
    intro hcon
    cases hcon
  rw [processTransceiver_eq_active_some idx t _ x hdir0 hres]
  dsimp only
  have hcd : currentDirection c.pc t = Direction.recvonly := by
    rw [currentDirection_eq_of_find hfind, hdir]
  rw [hcd]
  have hscan : scanRemaining idx x Direction.recvonly 0 [y] =
      (Direction.recvonly, y, some y, []) := by
    simp [scanRemaining, hgroup]
  rw [hscan]
  dsimp only
  rw [hmap]
  have hdel : jsMapDelete [(x, t.tid)] x = [] := by
    simp [jsMapDelete]
  rw [hdel]
  have hset : jsMapSet [] y t.tid = [(y, t.tid)] := by
    simp [jsMapSet]
  rw [hset]
  simp only [updateTransceiversLoop, createForRemaining]
  refine ⟨rfl, trivial, ?_, ?_⟩
  · rw [findTransceiver_setDirection, hfind]
    simp only [Option.map_some']
    rw [← hdir]
    simp
  · exact setDirection_length _ _ _

/-- Witness for C7: Scenario C — slot bound to 5, desired {7}, 5 and 7 in
the same group. -/
theorem claim7_same_group_witness :
    (updateVideoTransceivers cfgB idxGroup57 [7]).2 = [0, 7] ∧
    (updateVideoTransceivers cfgB idxGroup57 [7]).1.streamIdToTransceiver = [(7, 1)] ∧
    findTransceiver ((updateVideoTransceivers cfgB idxGroup57 [7]).1.pc) boundT.tid =
        some boundT ∧
    (updateVideoTransceivers cfgB idxGroup57 [7]).1.pc.transceivers.length =
      cfgB.pc.transceivers.length :=
  claim7_same_group_rebind cfgB idxGroup57 5 7 boundT (by decide) (by decide)
    (by decide) (by decide) (by decide) (by decide) (by decide)

/-! ### Claim C8 -/

/-- C8 is false on the code: one slot bound to 5 (tag resolves to 5, groups
are equality, so every id is in its own group and resolution is a fixed pure
function, hence consistent across calls), desired set {9}.  The first call
deactivates the slot and creates a new transceiver: [0, 0, 9].  The second
call refills the now-inactive first slot with 9 and the created transceiver
(unresolvable tag) keeps 0: [0, 9, 0] — a different array, and the first
slot's direction was toggled again. -/
theorem claim8_counterexample :
    (updateVideoTransceivers (updateVideoTransceivers cfg8 idxEq5 [9]).1 idxEq5 [9]).2 ≠
      (updateVideoTransceivers cfg8 idxEq5 [9]).2 := by
  decide

/-- C8 (amended): calling `updateVideoTransceivers` twice with the same
duplicate-free desired set of nonzero ids yields, on both calls, an array
whose nonzero entries are exactly the desired ids (each exactly once) — the
content is stable even though the positions, slot directions and array length
may differ between the calls. -/
theorem claim8_amended_same_content (c : DefaultTransceiverController)
    (idx : VideoStreamIndex) (D : List Nat) (h : useTransceivers c = true)
    (hnd : D.Nodup) (h0 : 0 ∉ D) :
    (∀ d ∈ D, ((updateVideoTransceivers c idx D).2).count d = 1 ∧
       ((updateVideoTransceivers (updateVideoTransceivers c idx D).1 idx D).2).count d = 1) ∧
    (∀ v ∈ (updateVideoTransceivers c idx D).2, v = 0 ∨ v ∈ D) ∧
    (∀ v ∈ (updateVideoTransceivers (updateVideoTransceivers c idx D).1 idx D).2,
       v = 0 ∨ v ∈ D) := by
  have h2 : useTransceivers (updateVideoTransceivers c idx D).1 = true := by
    rw [updateVideoTransceivers_keeps_use]
    exact h
  exact ⟨fun d hd => ⟨updateVideoTransceivers_count c idx D h hnd h0 d hd,
      updateVideoTransceivers_count _ idx D h2 hnd h0 d hd⟩,
    updateVideoTransceivers_values c idx D h,
    updateVideoTransceivers_values _ idx D h2⟩

/-- Witness for the amended C8 at the counterexample's input. -/
theorem claim8_amended_witness :
    ((updateVideoTransceivers cfg8 idxEq5 [9]).2).count 9 = 1 ∧
    ((updateVideoTransceivers (updateVideoTransceivers cfg8 idxEq5 [9]).1 idxEq5 [9]).2).count 9 = 1 :=
  (claim8_amended_same_content cfg8 idxEq5 [9] (by decide) (by decide) (by decide)).1
    9 (by decide)

/-! ### Claim C9 -/

/-- C9: without a usable peer connection (`useTransceivers()` false),
`updateVideoTransceivers` performs no state mutation and returns exactly the
caller's desired array. -/
theorem claim9_no_transport_passthrough (c : DefaultTransceiverController)
    (idx : VideoStreamIndex) (D : List Nat) (h : useTransceivers c = false) :
    updateVideoTransceivers c idx D = (c, D) := by
  simp [updateVideoTransceivers, h]

/-- Witness for C9. -/
theorem claim9_no_transport_witness :
    useTransceivers cfgNoPeer = false ∧
    updateVideoTransceivers cfgNoPeer idxEq5 [4, 6] = (cfgNoPeer, [4, 6]) :=
  ⟨by decide, claim9_no_transport_passthrough cfgNoPeer idxEq5 [4, 6] (by decide)⟩

/-! ### Claim C10 -/

theorem findTransceiver_setSenderEncodings (pc : RTCPeerConnection) (tid : Nat)
    (encs : List RTCRtpEncodingParameters) :
    findTransceiver (setSenderEncodings pc tid encs) tid =
      (findTransceiver pc tid).map
        (fun u => if u.tid = tid then { u with senderEncodings := encs } else u) := by
  unfold findTransceiver setSenderEncodings
  exact find?_tid_map _ (fun t => by by_cases h : t.tid = tid <;> simp [h]) tid _

/-- One merge step never touches the immutable `rid`/`codecPayloadType`. -/
theorem applyEncodingChange_immutable (e ch : RTCRtpEncodingParameters) :
    (applyEncodingChange e ch).rid = e.rid ∧
    (applyEncodingChange e ch).codecPayloadType = e.codecPayloadType := by
  unfold applyEncodingChange
  split
  · exact ⟨rfl, rfl⟩
  · exact ⟨rfl, rfl⟩

/-- Folding any list of changed layers never touches `rid` or
`codecPayloadType`. -/
theorem foldl_applyEncodingChange_immutable :
    ∀ (chs : List RTCRtpEncodingParameters) (e : RTCRtpEncodingParameters),
      (chs.foldl applyEncodingChange e).rid = e.rid ∧
      (chs.foldl applyEncodingChange e).codecPayloadType = e.codecPayloadType := by
  intro chs
  induction chs with
  | nil => intro e; exact ⟨rfl, rfl⟩
  | cons ch rest ih =>
    intro e
    obtain ⟨h1, h2⟩ := ih (applyEncodingChange e ch)
    obtain ⟨h3, h4⟩ := applyEncodingChange_immutable e ch
    exact ⟨by rw [List.foldl_cons, h1, h3], by rw [List.foldl_cons, h2, h4]⟩

/-- Matching rids (or both unset): every provided mutable field is copied,
absent fields keep the existing value. -/
theorem applyEncodingChange_match (e ch : RTCRtpEncodingParameters)
    (h : e.rid = ch.rid) :
    (applyEncodingChange e ch).maxBitrate = ch.maxBitrate.or e.maxBitrate ∧
    (applyEncodingChange e ch).scaleResolutionDownBy =
      ch.scaleResolutionDownBy.or e.scaleResolutionDownBy ∧
    (applyEncodingChange e ch).active = ch.active.or e.active := by
  have hc : ((e.rid.isSome || ch.rid.isSome) && decide (e.rid ≠ ch.rid)) = false := by
    simp [h]
  unfold applyEncodingChange
  rw [hc]
  simp only [Bool.false_eq_true, if_false]
  refine ⟨?_, ?_, ?_⟩
  · cases ch.maxBitrate <;> rfl
  · cases ch.scaleResolutionDownBy <;> rfl
  · cases ch.active <;> rfl

/-- Differing rids: the changed layer is skipped entirely. -/
theorem applyEncodingChange_skip (e ch : RTCRtpEncodingParameters)
    (h : e.rid ≠ ch.rid) : applyEncodingChange e ch = e := by
  have hc : ((e.rid.isSome || ch.rid.isSome) && decide (e.rid ≠ ch.rid)) = true := by
    cases he : e.rid <;> cases hch : ch.rid <;> simp_all
  unfold applyEncodingChange
  rw [hc]
  simp

/-- `Option.or` absorbs a repeated left operand. -/
theorem option_or_idem {α : Type} (a b : Option α) :
    Option.or a (Option.or a b) = Option.or a b := by
  cases a <;> rfl

/-- An existing layer matching no supplied changed layer is left unchanged
by the whole merge fold. -/
theorem foldl_applyEncodingChange_skip_all :
    ∀ (chs : List RTCRtpEncodingParameters) (e : RTCRtpEncodingParameters),
      (∀ ch ∈ chs, e.rid ≠ ch.rid) → chs.foldl applyEncodingChange e = e := by
  intro chs
  induction chs with
  | nil => intro e _; rfl
  | cons ch0 rest ih =>
    intro e hno
    rw [List.foldl_cons,
      applyEncodingChange_skip e ch0 (hno ch0 (List.mem_cons_self ch0 rest))]
    exact ih e (fun ch hch => hno ch (List.mem_cons_of_mem _ hch))

/-- Once the unique rid-matching changed layer `ch` has been merged into the
accumulator, the rest of the fold keeps the merged field values: every other
changed layer is skipped, and re-merging `ch` itself is absorbed by
`Option.or`. -/
theorem foldl_applyEncodingChange_keep (ch : RTCRtpEncodingParameters) :
    ∀ (chs : List RTCRtpEncodingParameters) (e acc : RTCRtpEncodingParameters),
      acc.rid = e.rid →
      (∀ ch' ∈ chs, e.rid = ch'.rid → ch' = ch) →
      acc.maxBitrate = ch.maxBitrate.or e.maxBitrate →
      acc.scaleResolutionDownBy = ch.scaleResolutionDownBy.or e.scaleResolutionDownBy →
      acc.active = ch.active.or e.active →
      (chs.foldl applyEncodingChange acc).rid = e.rid ∧
      (chs.foldl applyEncodingChange acc).maxBitrate = ch.maxBitrate.or e.maxBitrate ∧
      (chs.foldl applyEncodingChange acc).scaleResolutionDownBy =
        ch.scaleResolutionDownBy.or e.scaleResolutionDownBy ∧
      (chs.foldl applyEncodingChange acc).active = ch.active.or e.active := by
  intro chs
  induction chs with
  | nil => intro e acc h1 _ h3 h4 h5; exact ⟨h1, h3, h4, h5⟩
  | cons ch0 rest ih =>
    intro e acc h1 huniq h3 h4 h5
    rw [List.foldl_cons]
    by_cases hm : e.rid = ch0.rid
    · have hch0 : ch0 = ch := huniq ch0 (List.mem_cons_self ch0 rest) hm
      subst hch0
      have hmatch := applyEncodingChange_match acc ch0 (by rw [h1]; exact hm)
      have hrid := (applyEncodingChange_immutable acc ch0).1
      refine ih e (applyEncodingChange acc ch0) (by rw [hrid]; exact h1)
        (fun ch' h' hr => huniq ch' (List.mem_cons_of_mem _ h') hr) ?_ ?_ ?_
      · rw [hmatch.1, h3, option_or_idem]
      · rw [hmatch.2.1, h4, option_or_idem]
      · rw [hmatch.2.2, h5, option_or_idem]
    · have hskip : applyEncodingChange acc ch0 = acc :=
        applyEncodingChange_skip acc ch0 (by rw [h1]; exact hm)
      rw [hskip]
      exact ih e acc h1 (fun ch' h' hr => huniq ch' (List.mem_cons_of_mem _ h') hr) h3 h4 h5

/-- For an arbitrary patch, an existing layer `e` whose rid is matched by the
supplied changed layer `ch` — and by no other supplied layer — ends the merge
fold with every provided mutable field of `ch` copied onto it, absent fields
keeping `e`'s values. -/
theorem foldl_applyEncodingChange_unique_match (ch : RTCRtpEncodingParameters) :
    ∀ (chs : List RTCRtpEncodingParameters) (e : RTCRtpEncodingParameters),
      ch ∈ chs → e.rid = ch.rid →
      (∀ ch' ∈ chs, e.rid = ch'.rid → ch' = ch) →
      (chs.foldl applyEncodingChange e).maxBitrate = ch.maxBitrate.or e.maxBitrate ∧
      (chs.foldl applyEncodingChange e).scaleResolutionDownBy =
        ch.scaleResolutionDownBy.or e.scaleResolutionDownBy ∧
      (chs.foldl applyEncodingChange e).active = ch.active.or e.active := by
  intro chs
  induction chs with
  | nil => intro e hmem; cases hmem
  | cons ch0 rest ih =>
    intro e hmem hrid huniq
    rw [List.foldl_cons]
    by_cases hm : e.rid = ch0.rid
    · have hch0 : ch0 = ch := huniq ch0 (List.mem_cons_self ch0 rest) hm
      subst hch0
      have hmatch := applyEncodingChange_match e ch0 hm
      have hrid0 := (applyEncodingChange_immutable e ch0).1
      obtain ⟨_, h2, h3, h4⟩ := foldl_applyEncodingChange_keep ch0 rest e
        (applyEncodingChange e ch0) hrid0
        (fun ch' h' hr => huniq ch' (List.mem_cons_of_mem _ h') hr)
        hmatch.1 hmatch.2.1 hmatch.2.2
      exact ⟨h2, h3, h4⟩
    · have hskip : applyEncodingChange e ch0 = e := applyEncodingChange_skip e ch0 hm
      rw [hskip]
      have hmem' : ch ∈ rest := by
        rcases List.mem_cons.1 hmem with rfl | hr
        · exact absurd hrid hm
        · exact hr
      exact ih e hmem' hrid (fun ch' h' hr => huniq ch' (List.mem_cons_of_mem _ h') hr)

/-- C10: `setEncodingParameters` is a no-op without a camera transceiver,
with a non-`sendrecv` camera direction, or with an empty patch map; on an
active camera sender with existing encodings it merges in place, never
touching any layer's `rid` or `codecPayloadType`; for an arbitrary non-empty
patch, every supplied changed layer that is the unique supplied layer
matching an existing layer's rid (as in multi-rid simulcast patches, where
rids are pairwise distinct) has every provided mutable field copied onto that
layer, absent fields keeping their values, and an existing layer matching no
supplied layer is unchanged. -/
theorem claim10_setEncodingParameters_spec :
    (∀ (c : DefaultTransceiverController)
       (p : List (String × RTCRtpEncodingParameters)),
       c.localCameraTid = none → setEncodingParameters c p = c) ∧
    (∀ (c : DefaultTransceiverController)
       (p : List (String × RTCRtpEncodingParameters))
       (tid : Nat) (cam : RTCRtpTransceiver), c.localCameraTid = some tid →
       findTransceiver c.pc tid = some cam →
       cam.direction ≠ Direction.sendrecv → setEncodingParameters c p = c) ∧
    (∀ c : DefaultTransceiverController, setEncodingParameters c [] = c) ∧
    (∀ (c : DefaultTransceiverController)
       (p : List (String × RTCRtpEncodingParameters))
       (tid : Nat) (cam : RTCRtpTransceiver), c.localCameraTid = some tid →
       findTransceiver c.pc tid = some cam →
       cam.direction = Direction.sendrecv → p ≠ [] → cam.senderEncodings ≠ [] →
       ∃ cam', findTransceiver ((setEncodingParameters c p).pc) tid = some cam' ∧
         cam'.senderEncodings.length = cam.senderEncodings.length ∧
         (∀ (i : Nat) (e : RTCRtpEncodingParameters),
            cam.senderEncodings[i]? = some e →
            ∃ e', cam'.senderEncodings[i]? = some e' ∧
              e'.rid = e.rid ∧ e'.codecPayloadType = e.codecPayloadType) ∧
         (∀ (i : Nat) (e : RTCRtpEncodingParameters),
            cam.senderEncodings[i]? = some e →
            ∃ e', cam'.senderEncodings[i]? = some e' ∧
              ((∀ ch ∈ p.map Prod.snd, e.rid ≠ ch.rid) → e' = e) ∧
              (∀ ch ∈ p.map Prod.snd, e.rid = ch.rid →
                 (∀ ch' ∈ p.map Prod.snd, e.rid = ch'.rid → ch' = ch) →
                 e'.maxBitrate = ch.maxBitrate.or e.maxBitrate ∧
                 e'.scaleResolutionDownBy =
                   ch.scaleResolutionDownBy.or e.scaleResolutionDownBy ∧
                 e'.active = ch.active.or e.active))) := by
  refine ⟨?_, ?_, ?_, ?_⟩
  · intro c p hc
    simp [setEncodingParameters, hc]
  · intro c p tid cam hc hf hd
    simp [setEncodingParameters, hc, hf, hd]
  · intro c
    cases hc : c.localCameraTid with
    | none => simp [setEncodingParameters, hc]
    | some tid =>
      cases hf : findTransceiver c.pc tid with
      | none => simp [setEncodingParameters, hc, hf]
      | some cam =>
        by_cases hd : cam.direction = Direction.sendrecv
        · simp [setEncodingParameters, hc, hf, hd]
        · simp [setEncodingParameters, hc, hf, hd]
  · intro c p tid cam hc hf hd hp hencs
    have hlenp : ¬ p.length = 0 := by
      simpa using hp
    have hlene : ¬ cam.senderEncodings.length = 0 := by
      simpa using hencs
    have hdd : ¬ cam.direction ≠ Direction.sendrecv := fun hne => hne hd
    have hctid : cam.tid = tid := by
      simpa using List.find?_some hf
    have heq : setEncodingParameters c p =
        { c with pc := setSenderEncodings c.pc tid (mergeEncodings p cam.senderEncodings) } := by
      simp only [setEncodingParameters, mergeEncodings, hc, hf]
      rw [if_neg hdd, if_neg hlenp, if_neg hlene]
    refine ⟨{ cam with senderEncodings := mergeEncodings p cam.senderEncodings },
      ?_, ?_, ?_, ?_⟩
    · rw [heq]
      dsimp only
      rw [findTransceiver_setSenderEncodings, hf]
      simp only [Option.map_some']
      rw [if_pos hctid]
    · simp [mergeEncodings]
    · intro i e he
      refine ⟨(p.map Prod.snd).foldl applyEncodingChange e, ?_, ?_⟩
      · simp only [mergeEncodings]
        rw [List.getElem?_map, he]
        rfl
      · exact foldl_applyEncodingChange_immutable (p.map Prod.snd) e
    · intro i e he
      refine ⟨(p.map Prod.snd).foldl applyEncodingChange e, ?_, ?_, ?_⟩
      · simp only [mergeEncodings]
        rw [List.getElem?_map, he]
        rfl
      · intro hno
        exact foldl_applyEncodingChange_skip_all (p.map Prod.snd) e hno
      · intro ch hmem hrid huniq
        exact foldl_applyEncodingChange_unique_match ch (p.map Prod.snd) e hmem hrid huniq

/-- Witness for C10: the non-`sendrecv` no-op clause at a concrete input, and
the merge clause at an active camera with two simulcast layers patched by a
two-layer multi-rid map — each layer receives the provided fields of its own
matching changed layer, absent fields keep their values. -/
theorem claim10_setEncodingParameters_witness :
    (setEncodingParameters cfgCamOff [("k", patchEnc)] = cfgCamOff) ∧
    (∃ cam', findTransceiver ((setEncodingParameters cfg10
        [("k", patchEnc), ("h", patchEncHigh)]).pc) 0 = some cam' ∧
      cam'.senderEncodings.length = 2 ∧
      (∃ e', cam'.senderEncodings[0]? = some e' ∧ e'.rid = some "low" ∧
         e'.codecPayloadType = some 96 ∧ e'.maxBitrate = some 600 ∧
         e'.active = some true) ∧
      (∃ e', cam'.senderEncodings[1]? = some e' ∧ e'.rid = some "high" ∧
         e'.codecPayloadType = some 97 ∧ e'.maxBitrate = some 2500 ∧
         e'.active = some false)) := by
  constructor
  · exact claim10_setEncodingParameters_spec.2.1 cfgCamOff [("k", patchEnc)] 0 camOffT
      rfl (by decide) (by decide)
  · obtain ⟨cam', h1, h2, h3, h4⟩ := claim10_setEncodingParameters_spec.2.2.2 cfg10
      [("k", patchEnc), ("h", patchEncHigh)] 0 cameraWithEnc rfl (by decide) (by decide)
      (by decide) (by decide)
    refine ⟨cam', h1, by rw [h2]; rfl, ?_, ?_⟩
    · obtain ⟨e1, he1, hr1, hc1⟩ := h3 0 camEnc (by decide)
      obtain ⟨e2, he2, _, hcopy⟩ := h4 0 camEnc (by decide)
      have hee : e2 = e1 := by
        rw [he1] at he2
        exact (Option.some.injEq _ _ ▸ he2).symm
      obtain ⟨hm1, hm2, hm3⟩ := hcopy patchEnc (by decide) (by decide) (by decide)
      rw [hee] at hm1 hm3
      exact ⟨e1, he1, by rw [hr1]; rfl, by rw [hc1]; rfl, by rw [hm1]; rfl,
        by rw [hm3]; rfl⟩
    · obtain ⟨e1, he1, hr1, hc1⟩ := h3 1 camEncHigh (by decide)
      obtain ⟨e2, he2, _, hcopy⟩ := h4 1 camEncHigh (by decide)
      have hee : e2 = e1 := by
        rw [he1] at he2
        exact (Option.some.injEq _ _ ▸ he2).symm
      obtain ⟨hm1, hm2, hm3⟩ := hcopy patchEncHigh (by decide) (by decide) (by decide)
      rw [hee] at hm1 hm3
      exact ⟨e1, he1, by rw [hr1]; rfl, by rw [hc1]; rfl, by rw [hm1]; rfl,
        by rw [hm3]; rfl⟩

end ChimeSdk
